import Mathlib

/-!
Verification of the Ghost blog fetch-and-persist flow (`pull_ghost_posts.py`).

The development shallowly embeds the `GhostPostFetcher` class: the pagination
loop `fetch_all_posts` (pages are requested from an abstract server oracle,
the `while True` loop is driven by fuel), the HTML-stripping helper
`strip_html_tags` (the three `re.sub` passes are implemented directly as
character-list scans), and the persistence helpers `save_as_json`,
`save_as_txt`, `save_index` and `fetch_and_save` (file-system effects are
recorded as an explicit event list; a Python `KeyError`/request exception
becomes an explicit error value).
-/

/-- A tag or author record: a JSON mapping that may or may not carry the
key `name` (`tag['name']` raises `KeyError` when it is absent). -/
structure NameDict where
  name : Option String := none
  deriving DecidableEq

/-- A post record as deserialized from one page of the API response.  Every
field may be absent (`none`); the Python code reads each one with
`post.get(...)`. -/
structure Post where
  id : Option String := none
  slug : Option String := none
  title : Option String := none
  excerpt : Option String := none
  html : Option String := none
  published_at : Option String := none
  reading_time : Option Nat := none
  tags : Option (List NameDict) := none
  authors : Option (List NameDict) := none
  url : Option String := none
  deriving DecidableEq

/-! ### `strip_html_tags`

`re.sub(r'<(script|style)[^>]*>.*?</\1>', '', s, flags=re.DOTALL)` followed by
`re.sub(r'<[^>]+>', '\n', s)`, `re.sub(r'\n+', '\n', s)` and `str.strip()`.
Each pass is a left-to-right scan over the characters; the scans carry a fuel
argument equal to the input length so that the recursion is structural. -/

/-- Consume `[^>]*` and then a closing `'>'`; `none` when no `'>'` follows. -/
def takeUntilGt : List Char → Option (List Char)
  | [] => none
  | c :: cs => if c = '>' then some cs else takeUntilGt cs

/-- Match `name[^>]*>` at the start of `s` (the text after a `'<'`). -/
def matchOpenTag (name : List Char) (s : List Char) : Option (List Char) :=
  if name.isPrefixOf s then takeUntilGt (s.drop name.length) else none

/-- Remainder of `s` after the first occurrence of `pat` (the lazy `.*?`
followed by the literal closing tag finds the earliest closing tag). -/
def splitAfterFirst (pat : List Char) : List Char → Option (List Char)
  | [] => none
  | c :: cs =>
    if pat.isPrefixOf (c :: cs) then some ((c :: cs).drop pat.length)
    else splitAfterFirst pat cs

/-- Try to match `<name[^>]*>.*?</name>` where the leading `'<'` has already
been consumed; returns the remainder after the whole match. -/
def tryTagRemove (name closeTag : List Char) (s : List Char) : Option (List Char) :=
  match matchOpenTag name s with
  | some afterOpen => splitAfterFirst closeTag afterOpen
  | none => none

/-- Alternation `(script|style)` with the back-reference `\1`: the two tag
names are never prefixes of the same text, so trying `script` first matches
Python's left-to-right alternation. -/
def tryScriptStyle (s : List Char) : Option (List Char) :=
  match tryTagRemove "script".data "</script>".data s with
  | some r => some r
  | none => tryTagRemove "style".data "</style>".data s

/-- One pass of `re.sub(r'<(script|style)[^>]*>.*?</\1>', '', s)`: leftmost
non-overlapping matches are deleted. -/
def removeScriptStyleGo : Nat → List Char → List Char
  | 0, s => s
  | _ + 1, [] => []
  | fuel + 1, c :: cs =>
    if c = '<' then
      match tryScriptStyle cs with
      | some rest => removeScriptStyleGo fuel rest
      | none => c :: removeScriptStyleGo fuel cs
    else c :: removeScriptStyleGo fuel cs

def removeScriptStyle (s : List Char) : List Char := removeScriptStyleGo s.length s

/-- Match `[^>]+>` after a `'<'`: at least one non-`'>'` character, then
everything up to and including the first `'>'`. -/
def takeTagRest : List Char → Option (List Char)
  | [] => none
  | c :: cs => if c = '>' then none else takeUntilGt cs

/-- One pass of `re.sub(r'<[^>]+>', '\n', s)`. -/
def replaceTagsGo : Nat → List Char → List Char
  | 0, s => s
  | _ + 1, [] => []
  | fuel + 1, c :: cs =>
    if c = '<' then
      match takeTagRest cs with
      | some rest => '\n' :: replaceTagsGo fuel rest
      | none => c :: replaceTagsGo fuel cs
    else c :: replaceTagsGo fuel cs

def replaceTags (s : List Char) : List Char := replaceTagsGo s.length s

/-- `re.sub(r'\n+', '\n', s)`: collapse runs of newlines to a single one. -/
def collapseNl : List Char → List Char
  | [] => []
  | [c] => [c]
  | c :: d :: cs =>
    if c = '\n' && d = '\n' then collapseNl (d :: cs)
    else c :: collapseNl (d :: cs)

/-- The ASCII whitespace removed by Python's `str.strip()`. -/
def isPySpace (c : Char) : Bool :=
  c = ' ' || c = '\t' || c = '\n' || c = '\r' || c = '\x0b' || c = '\x0c'

def pyStrip (s : List Char) : List Char :=
  ((s.dropWhile isPySpace).reverse.dropWhile isPySpace).reverse

/-- `GhostPostFetcher.strip_html_tags`. -/
def strip_html_tags (html_content : String) : String :=
  if html_content = "" then ""
  else String.mk (pyStrip (collapseNl (replaceTags (removeScriptStyle html_content.data))))

/-- `pat` occurs as a contiguous substring of `s`. -/
def occurs (pat : List Char) : List Char → Bool
  | [] => pat.isEmpty
  | c :: cs => pat.isPrefixOf (c :: cs) || occurs pat cs


/-! ### Persistence: `save_as_txt`, `save_index`, `save_as_json` -/

/-- A Python `KeyError`, carrying the missing key. -/
structure KeyErr where
  missingKey : String
  deriving DecidableEq

deriving instance DecidableEq for Except

/-- `[tag['name'] for tag in l]`: the comprehension evaluates left to right
and raises `KeyError('name')` at the first element lacking the key. -/
def extractNames : List NameDict → Except KeyErr (List String)
  | [] => .ok []
  | t :: ts =>
    match t.name with
    | none => .error ⟨"name"⟩
    | some n => (extractNames ts).map (fun ns => n :: ns)

/-- The character class of `re.sub(r'[<>:"/\\|?*]', '_', title)`. -/
def badFilenameChar (c : Char) : Bool :=
  c = '<' || c = '>' || c = ':' || c = '"' || c = '/' || c = '\\' || c = '|' || c = '?' || c = '*'

def sanitizeTitle (t : String) : String :=
  String.mk (t.data.map (fun c => if badFilenameChar c then '_' else c))

/-- `'='*80`. -/
def eq80 : String := String.mk (List.replicate 80 '=')

structure TxtFile where
  filename : String
  content : String
  deriving DecidableEq

/-- The body of the `for post in posts` loop of `save_as_txt`: filename
derivation, HTML stripping and the fixed banner layout.  Building the
f-string evaluates `tag['name']` / `author['name']` and may raise. -/
def mkTxtFile (post : Post) : Except KeyErr TxtFile :=
  let title := post.title.getD "untitled"
  let slug := post.slug.getD ("post-" ++ post.id.getD "unknown")
  let safe_title := sanitizeTitle title
  let safe_filename := slug ++ "_" ++ String.mk (safe_title.data.take 50) ++ ".txt"
  let text_content := strip_html_tags (post.html.getD "")
  match extractNames (post.tags.getD []) with
  | .error e => .error e
  | .ok tagNames =>
    match extractNames (post.authors.getD []) with
    | .error e => .error e
    | .ok authorNames =>
      .ok { filename := safe_filename
            content :=
              eq80 ++ "\n" ++ title ++ "\n" ++ eq80
              ++ "\n\n摘要: " ++ post.excerpt.getD "无摘要"
              ++ "\n\n发布日期: " ++ post.published_at.getD ""
              ++ "\n\n阅读时间: " ++ toString (post.reading_time.getD 0) ++ " 分钟"
              ++ "\n\n标签: " ++ String.intercalate ", " tagNames
              ++ "\n\n作者: " ++ String.intercalate ", " authorNames
              ++ "\n\n" ++ eq80 ++ "\n文章内容\n" ++ eq80 ++ "\n\n" ++ text_content ++ "\n" }

/-- `GhostPostFetcher.save_as_txt`: writes one file per post, in order,
stopping at the first raised `KeyError`; returns the files actually written
and the exception, if any. -/
def save_as_txt : List Post → List TxtFile × Option KeyErr
  | [] => ([], none)
  | p :: ps =>
    match mkTxtFile p with
    | .error e => ([], some e)
    | .ok f =>
      let rest := save_as_txt ps
      (f :: rest.1, rest.2)

/-- One entry of the slim index written by `save_index`: every field is read
with `post.get(field)` (so an absent field persists as JSON `null`), except
`tags`, which defaults to the empty list and projects each tag to
`tag['name']`.  Author names are not part of the index. -/
structure IndexEntry where
  id : Option String
  slug : Option String
  title : Option String
  excerpt : Option String
  published_at : Option String
  reading_time : Option Nat
  tags : List String
  url : Option String
  deriving DecidableEq

def mkIndexEntry (post : Post) : Except KeyErr IndexEntry :=
  match extractNames (post.tags.getD []) with
  | .error e => .error e
  | .ok tagNames =>
    .ok { id := post.id, slug := post.slug, title := post.title, excerpt := post.excerpt
          published_at := post.published_at, reading_time := post.reading_time
          tags := tagNames, url := post.url }

/-- `GhostPostFetcher.save_index`: the whole index list is built (raising at
the first missing tag name) before the single `index.json` write. -/
def save_index : List Post → Except KeyErr (List IndexEntry)
  | [] => .ok []
  | p :: ps =>
    match mkIndexEntry p with
    | .error e => .error e
    | .ok ent => (save_index ps).map (fun rest => ent :: rest)

/-- `datetime.now()` as passed to `strftime` / `isoformat`: Python datetimes
carry microseconds, which `'%Y%m%d_%H%M%S'` discards. -/
structure PyDateTime where
  year : Nat
  month : Nat
  day : Nat
  hour : Nat
  minute : Nat
  second : Nat
  microsecond : Nat
  deriving DecidableEq

/-- Two-digit zero padding of `%m %d %H %M %S`. -/
def pad2 (n : Nat) : String := if n < 10 then "0" ++ toString n else toString n

/-- `datetime.now().strftime('%Y%m%d_%H%M%S')`. -/
def strftime_ts (t : PyDateTime) : String :=
  toString t.year ++ pad2 t.month ++ pad2 t.day ++ "_"
    ++ pad2 t.hour ++ pad2 t.minute ++ pad2 t.second

/-- The JSON artifact name `f"ghost_posts_{timestamp}.json"` built by
`save_as_json`. -/
def json_filename (t : PyDateTime) : String :=
  "ghost_posts_" ++ strftime_ts t ++ ".json"

/-- The document written by `save_as_json`: a metadata envelope plus the
full post collection. -/
structure JsonDump where
  fetched_at : PyDateTime
  total_posts : Nat
  source : String
  posts : List Post
  deriving DecidableEq

def save_as_json (posts : List Post) (source : String) (ts : PyDateTime) : JsonDump :=
  { fetched_at := ts, total_posts := posts.length, source := source, posts := posts }

/-! ### The pagination loop `fetch_all_posts`

The HTTP endpoint is an oracle mapping `(page, limit)` request parameters to
either a post list (the `posts` field of the parsed body) or a raised
`requests` exception.  `limit : Option Nat` models the Python parameter:
`none` is `None`, and Python truthiness makes `some 0` act like `none` in
`limit or 100`, `if limit:` and `if limit and ...:`. -/

structure HttpErr where
  code : Nat
  deriving DecidableEq

abbrev Server := Nat → Nat → Except HttpErr (List Post)

/-- `per_page = min(limit or 100, 100)`. -/
def perPage (limit : Option Nat) : Nat :=
  min (match limit with | some l => if l = 0 then 100 else l | none => 100) 100

/-- The `params['limit']` actually sent for a page: `per_page`, overwritten
with `min(limit - len(all_posts), per_page)` when `limit` is truthy. -/
def pageLimit (limit : Option Nat) (per_page accLen : Nat) : Nat :=
  match limit with
  | some l => if l = 0 then per_page else min (l - accLen) per_page
  | none => per_page

/-- `if limit and len(all_posts) >= limit: break`. -/
def limitReached (limit : Option Nat) (n : Nat) : Bool :=
  match limit with
  | some l => if l = 0 then false else decide (l ≤ n)
  | none => false

inductive FetchOut where
  | ok (posts : List Post)
  | err (e : HttpErr)
  | diverge
  deriving DecidableEq

/-- The `while True` loop of `fetch_all_posts`, with the accumulated list and
the 1-based page counter as explicit state.  Besides the Python result it
also returns the trace of `(page, limit)` request parameters issued, in
order.  `fuel` bounds the number of iterations; `.diverge` marks exhaustion
(the Python loop would still be running). -/
def consTrace (r : Nat × Nat) (x : FetchOut × List (Nat × Nat)) : FetchOut × List (Nat × Nat) :=
  (x.1, r :: x.2)

def fetchGo (server : Server) (limit : Option Nat) : Nat → List Post → Nat → FetchOut × List (Nat × Nat)
  | 0, _, _ => (.diverge, [])
  | fuel + 1, acc, page =>
    match server page (pageLimit limit (perPage limit) acc.length) with
    | .error e => (.err e, [(page, pageLimit limit (perPage limit) acc.length)])
    | .ok posts =>
      if posts.isEmpty then (.ok acc, [(page, pageLimit limit (perPage limit) acc.length)])
      else if posts.length < perPage limit then
        (.ok (acc ++ posts), [(page, pageLimit limit (perPage limit) acc.length)])
      else if limitReached limit (acc ++ posts).length then
        (.ok (acc ++ posts), [(page, pageLimit limit (perPage limit) acc.length)])
      else
        consTrace (page, pageLimit limit (perPage limit) acc.length)
          (fetchGo server limit fuel (acc ++ posts) (page + 1))

/-- `GhostPostFetcher.fetch_all_posts`. -/
def fetch_all_posts (server : Server) (limit : Option Nat) (fuel : Nat) : FetchOut × List (Nat × Nat) :=
  fetchGo server limit fuel [] 1

/-! ### A model of the upstream Ghost content API

A store of `total` posts, served in a fixed order.  A request for page `p`
with page size `k` returns the slice starting at offset `(p-1)*k` of length
at most `k` — the page/limit semantics of the Ghost API. -/

def mkPost (i : Nat) : Post := { id := some (toString i) }

def ghostPage (total page k : Nat) : List Post :=
  (List.range' ((page - 1) * k) (min k (total - (page - 1) * k))).map mkPost

def ghostServer (total : Nat) : Server := fun page k => .ok (ghostPage total page k)

/-- The first `n` posts of the store. -/
def ghostPrefix (n : Nat) : List Post := (List.range n).map mkPost

/-- All posts the upstream source holds. -/
def ghostAll (total : Nat) : List Post := ghostPrefix total

/-- A server whose store is empty. -/
def emptyServer : Server := fun _ _ => .ok []

/-- A server that fails every request. -/
def failingServer : Server := fun _ _ => .error ⟨500⟩


/-! ### `fetch_and_save`

File-system side effects are recorded as an ordered event list.  The flow
is: create the output directory, fetch, return early on an empty result,
otherwise write the JSON dump and the index when `save_json` is set and the
per-post text files when `save_txt` is set.  Any exception propagates (the
`except` clause logs and re-raises). -/

inductive Event where
  | mkdirDir (dir : String)
  | writeJson (file : String)
  | writeIndex (file : String)
  | writeTxt (file : String)
  deriving DecidableEq

inductive RunErr where
  | http (e : HttpErr)
  | key (e : KeyErr)
  deriving DecidableEq

inductive RunOutcome where
  | ok
  | raised (e : RunErr)
  | diverge
  deriving DecidableEq

/-- The `if save_json:` branch: `save_as_json` (idempotent mkdir plus the
timestamped dump) followed by `save_index`, whose single write happens only
if building the index did not raise. -/
def jsonPhase (output_dir : String) (ts : PyDateTime) (posts : List Post) :
    List Event × Option KeyErr :=
  match save_index posts with
  | .error e =>
    ([Event.mkdirDir output_dir,
      Event.writeJson (output_dir ++ "/" ++ json_filename ts)], some e)
  | .ok _ =>
    ([Event.mkdirDir output_dir,
      Event.writeJson (output_dir ++ "/" ++ json_filename ts),
      Event.writeIndex (output_dir ++ "/index.json")], none)

/-- The `if save_txt:` branch: mkdir of the `txt` subdirectory, then the
writes `save_as_txt` performed before raising, if it raised. -/
def txtPhase (txt_dir : String) (posts : List Post) : List Event × Option KeyErr :=
  (Event.mkdirDir txt_dir ::
     (save_as_txt posts).1.map (fun f => Event.writeTxt (txt_dir ++ "/" ++ f.filename)),
   (save_as_txt posts).2)

/-- `GhostPostFetcher.fetch_and_save`. -/
def fetch_and_save (server : Server) (output_dir : String) (save_json save_txt : Bool)
    (limit : Option Nat) (ts : PyDateTime) (fuel : Nat) : List Event × RunOutcome :=
  match (fetchGo server limit fuel [] 1).1 with
  | .diverge => ([Event.mkdirDir output_dir], .diverge)
  | .err e => ([Event.mkdirDir output_dir], .raised (.http e))
  | .ok posts =>
    if posts.isEmpty then ([Event.mkdirDir output_dir], .ok)
    else
      match (if save_json then jsonPhase output_dir ts posts else ([], none)) with
      | (jevs, some e) => (Event.mkdirDir output_dir :: jevs, .raised (.key e))
      | (jevs, none) =>
        if save_txt then
          match txtPhase (output_dir ++ "/txt") posts with
          | (tevs, some e) => (Event.mkdirDir output_dir :: (jevs ++ tevs), .raised (.key e))
          | (tevs, none) => (Event.mkdirDir output_dir :: (jevs ++ tevs), .ok)
        else (Event.mkdirDir output_dir :: jevs, .ok)

/-! ### Observations on events and posts used by the claims -/

def isJsonEvt : Event → Bool
  | .writeJson _ => true
  | _ => false

def isIndexEvt : Event → Bool
  | .writeIndex _ => true
  | _ => false

def isTxtEvt : Event → Bool
  | .writeTxt _ => true
  | _ => false

def hasJsonEvt (evs : List Event) : Bool := evs.any isJsonEvt
def hasIndexEvt (evs : List Event) : Bool := evs.any isIndexEvt
def hasTxtEvt (evs : List Event) : Bool := evs.any isTxtEvt

/-- Some element of `l` lacks the key `name`. -/
def missingName (l : List NameDict) : Bool := l.any (fun t => t.name.isNone)

/-- Some tag or author of `post` lacks `name` (the fields `save_as_txt`
subscripts). -/
def txtMissing (post : Post) : Bool :=
  missingName (post.tags.getD []) || missingName (post.authors.getD [])

/-- The post with every absent field replaced by the default `save_as_txt`
actually substitutes: `'untitled'` for the title, `post-<id>` for the slug,
`'无摘要'` for the excerpt, `''` for the publish date and the HTML body,
`0` for the reading time, and `[]` for tags and authors. -/
def txtDefaulted (post : Post) : Post :=
  { id := post.id
    slug := some (post.slug.getD ("post-" ++ post.id.getD "unknown"))
    title := some (post.title.getD "untitled")
    excerpt := some (post.excerpt.getD "无摘要")
    html := some (post.html.getD "")
    published_at := some (post.published_at.getD "")
    reading_time := some (post.reading_time.getD 0)
    tags := some (post.tags.getD [])
    authors := some (post.authors.getD [])
    url := post.url }

/-- The post with the only default `save_index` applies: absent `tags`
becomes the empty sequence.  All scalar fields are passed through
unchanged — absent ones persist as JSON `null`, not as `''`/`0`. -/
def indexDefaulted (post : Post) : Post :=
  { post with tags := some (post.tags.getD []) }

/-! ### Concrete inputs for witnesses and counterexamples -/

def t0 : PyDateTime := ⟨2024, 5, 6, 7, 8, 9, 0⟩

/-- The same wall-clock second as `t0`, half a second later. -/
def t0' : PyDateTime := ⟨2024, 5, 6, 7, 8, 9, 500000⟩

/-- A post carrying only `id`. -/
def pOnlyId : Post := { id := some "42" }

/-- A post whose single tag lacks `name`. -/
def pBadTag : Post := { id := some "1", tags := some [{ name := none }] }

/-- A post whose single author lacks `name` (its tag list is absent). -/
def pBadAuthor : Post := { id := some "1", authors := some [{ name := none }] }

/-! ## Helper lemmas -/

theorem pageLimit_le (limit : Option Nat) (pp aL : Nat) : pageLimit limit pp aL ≤ pp := by
  cases limit with
  | none => exact Nat.le_refl pp
  | some l =>
    by_cases h : l = 0
    · simp [pageLimit, h]
    · simp only [pageLimit, if_neg h]
      exact Nat.min_le_right _ _

theorem isEmpty_false_of_pos {α : Type} (l : List α) (h : 1 ≤ l.length) : l.isEmpty = false := by
  cases l with
  | nil => simp at h
  | cons a as => rfl

theorem perPage_none : perPage none = 100 := rfl

theorem pageLimit_none (pp n : Nat) : pageLimit none pp n = pp := rfl

theorem limitReached_none (n : Nat) : limitReached none n = false := rfl

theorem ghostPrefix_length (n : Nat) : (ghostPrefix n).length = n := by
  simp [ghostPrefix]

theorem ghostPage_length (total page k : Nat) :
    (ghostPage total page k).length = min k (total - (page - 1) * k) := by
  simp [ghostPage]

theorem ghostPrefix_append (a c : Nat) :
    ghostPrefix a ++ (List.range' a c).map mkPost = ghostPrefix (a + c) := by
  have h := List.range'_append_1 0 a c
  simp only [Nat.zero_add] at h
  rw [Nat.add_comm c a] at h
  simp [ghostPrefix, List.range_eq_range', ← List.map_append, h]

/-- Behind the `ghostServer` oracle, an unlimited fetch starting at page
`page` with the first `(page-1)*100` posts already accumulated downloads
exactly the whole store. -/
theorem fetchGo_ghost_none (total : Nat) :
    ∀ fuel page, 1 ≤ page → (page - 1) * 100 ≤ total → total - (page - 1) * 100 < fuel →
      (fetchGo (ghostServer total) none fuel (ghostPrefix ((page - 1) * 100)) page).1
        = .ok (ghostAll total) := by
  intro fuel
  induction fuel with
  | zero => intro page _ _ h3; exact absurd h3 (Nat.not_lt_zero _)
  | succ f ih =>
    intro page hpage h2 h3
    simp only [fetchGo, ghostServer, perPage_none, pageLimit_none, ghostPrefix_length,
      limitReached_none]
    by_cases h0 : total - (page - 1) * 100 = 0
    · have hpe : ghostPage total page 100 = [] := by simp [ghostPage, h0]
      have ha : (page - 1) * 100 = total := by omega
      simp [hpe, ghostAll, ha]
    · have hApp : ghostPrefix ((page - 1) * 100) ++ ghostPage total page 100
          = ghostPrefix ((page - 1) * 100 + min 100 (total - (page - 1) * 100)) := by
        rw [ghostPage]
        exact ghostPrefix_append _ _
      have hne : (ghostPage total page 100).isEmpty = false := by
        apply isEmpty_false_of_pos
        rw [ghostPage_length]
        omega
      by_cases hlt : total - (page - 1) * 100 < 100
      · have hcl : (ghostPage total page 100).length < 100 := by
          rw [ghostPage_length]; omega
        have htot : (page - 1) * 100 + min 100 (total - (page - 1) * 100) = total := by omega
        simp [hne, hcl, hApp, htot, ghostAll]
      · have hcl : ¬ (ghostPage total page 100).length < 100 := by
          rw [ghostPage_length]; omega
        have hmin : min 100 (total - (page - 1) * 100) = 100 := by omega
        have heq : (page - 1) * 100 + 100 = ((page + 1) - 1) * 100 := by
          have hp : page - 1 + 1 = page := by omega
          calc (page - 1) * 100 + 100 = ((page - 1) + 1) * 100 := by rw [Nat.succ_mul]
            _ = page * 100 := by rw [hp]
            _ = ((page + 1) - 1) * 100 := by simp
        simp only [hne, Bool.false_eq_true, if_false, hcl, consTrace]
        rw [hApp, hmin, heq]
        exact ih (page + 1) (by omega) (by omega) (by omega)

/-- An unlimited `fetch_all_posts` against a store of `total` posts returns
the whole store (fuel `total + 1` iterations always suffices). -/
theorem ghost_fetch_none_top (total : Nat) :
    (fetch_all_posts (ghostServer total) none (total + 1)).1 = .ok (ghostAll total) := by
  have h := fetchGo_ghost_none total (total + 1) 1 (Nat.le_refl 1) (by simp) (by omega)
  simpa [fetch_all_posts, ghostPrefix] using h

/-- The loop body treats `limit=0` and `limit=None` identically: Python
truthiness makes `limit or 100`, `if limit:` and `if limit and ...:` agree
on the two values. -/
theorem fetchGo_zero_none (server : Server) (fuel : Nat) :
    ∀ (acc : List Post) (page : Nat),
      fetchGo server (some 0) fuel acc page = fetchGo server none fuel acc page := by
  induction fuel with
  | zero => intro acc page; rfl
  | succ f ih =>
    intro acc page
    simp only [fetchGo, show perPage (some 0) = perPage none from rfl,
      show ∀ pp n, pageLimit (some 0) pp n = pageLimit none pp n from fun _ _ => rfl,
      show ∀ n, limitReached (some 0) n = limitReached none n from fun _ => rfl, ih]

/-! ## C9: limit=0 is treated as "no limit" -/

/-- C9 (confirmed).  Calling `fetch_all_posts` with `limit=0` does not fetch
zero posts: the loop behaves exactly as with `limit=None` from every state,
and against a store of `total` posts it paginates to exhaustion and returns
every available post. -/
theorem limit_zero_fetches_all :
    (∀ (server : Server) (fuel : Nat) (acc : List Post) (page : Nat),
        fetchGo server (some 0) fuel acc page = fetchGo server none fuel acc page) ∧
    (∀ total : Nat,
        (fetch_all_posts (ghostServer total) (some 0) (total + 1)).1 = .ok (ghostAll total)) := by
  refine ⟨fun server fuel => fetchGo_zero_none server fuel, fun total => ?_⟩
  rw [fetch_all_posts, fetchGo_zero_none]
  exact ghost_fetch_none_top total

/-- Behind the `ghostServer` oracle, a fetch with a positive limit `L ≤
total` accumulates exactly `L` posts: from any loop state whose accumulated
count matches the pages already consumed and is still below `L`, the loop
ends with a post list of length `L`. -/
theorem fetchGo_ghost_limited (L total : Nat) (hL : 1 ≤ L) (hT : L ≤ total) :
    ∀ fuel (acc : List Post) page, 1 ≤ page →
      acc.length = (page - 1) * perPage (some L) →
      acc.length < L → L - acc.length ≤ fuel →
      ∃ ps, (fetchGo (ghostServer total) (some L) fuel acc page).1 = .ok ps ∧ ps.length = L := by
  have hL0 : L ≠ 0 := by omega
  have hpp : perPage (some L) = min L 100 := by simp [perPage, hL0]
  have hpp1 : 1 ≤ perPage (some L) := by rw [hpp]; omega
  intro fuel
  induction fuel with
  | zero => intro acc page _ _ h3 h4; omega
  | succ f ih =>
    intro acc page hpage hlen hlt hfuel
    have hk : pageLimit (some L) (perPage (some L)) acc.length
        = min (L - acc.length) (perPage (some L)) := by simp [pageLimit, hL0]
    simp only [fetchGo, ghostServer, hk]
    by_cases hcase : perPage (some L) ≤ L - acc.length
    · -- a full page of size per_page is requested and served
      have hkv : min (L - acc.length) (perPage (some L)) = perPage (some L) := by omega
      rw [hkv]
      have hplen : (ghostPage total page (perPage (some L))).length = perPage (some L) := by
        rw [ghostPage_length, ← hlen]
        omega
      have hne : (ghostPage total page (perPage (some L))).isEmpty = false := by
        apply isEmpty_false_of_pos
        rw [hplen]
        exact hpp1
      have hnlt : ¬ (ghostPage total page (perPage (some L))).length < perPage (some L) := by
        rw [hplen]
        omega
      have hacc2 : (acc ++ ghostPage total page (perPage (some L))).length
          = acc.length + perPage (some L) := by
        rw [List.length_append, hplen]
      by_cases hreach : L ≤ acc.length + perPage (some L)
      · have hlr : limitReached (some L)
            (acc.length + (ghostPage total page (perPage (some L))).length) = true := by
          rw [hplen]
          simp [limitReached, hL0, hreach]
        refine ⟨acc ++ ghostPage total page (perPage (some L)), ?_, ?_⟩
        · simp [hne, hnlt, hlr]
        · rw [hacc2]
          omega
      · have hlr : limitReached (some L)
            (acc.length + (ghostPage total page (perPage (some L))).length) = false := by
          rw [hplen]
          simp [limitReached, hL0, hreach]
        have hstep : (acc ++ ghostPage total page (perPage (some L))).length
            = ((page + 1) - 1) * perPage (some L) := by
          rw [hacc2, hlen]
          have hp : page - 1 + 1 = page := by omega
          calc (page - 1) * perPage (some L) + perPage (some L)
              = ((page - 1) + 1) * perPage (some L) := (Nat.succ_mul _ _).symm
            _ = page * perPage (some L) := by rw [hp]
            _ = ((page + 1) - 1) * perPage (some L) := by simp
        have hrec := ih (acc ++ ghostPage total page (perPage (some L))) (page + 1)
          (by omega) hstep (by omega) (by rw [hacc2]; omega)
        simpa [hne, hnlt, hlr, consTrace] using hrec
    · -- the final partial page: exactly the remaining count is requested
      have hkv : min (L - acc.length) (perPage (some L)) = L - acc.length := by omega
      rw [hkv]
      have hmul : (page - 1) * (L - acc.length) ≤ acc.length := by
        rw [hlen]
        exact Nat.mul_le_mul_left _ (by omega)
      have hplen : (ghostPage total page (L - acc.length)).length = L - acc.length := by
        rw [ghostPage_length]
        omega
      have hne : (ghostPage total page (L - acc.length)).isEmpty = false := by
        apply isEmpty_false_of_pos
        rw [hplen]
        omega
      have hclt : (ghostPage total page (L - acc.length)).length < perPage (some L) := by
        rw [hplen]
        omega
      refine ⟨acc ++ ghostPage total page (L - acc.length), by simp [hne, hclt], ?_⟩
      rw [List.length_append, hplen]
      omega

/-! ## C1: a positive limit at most the store size is hit exactly -/

/-- C1 (corrected, amended claim).  For every overall limit `L` with
`1 ≤ L ≤` the number of posts the upstream source holds, `fetch_all_posts`
with `limit=L` returns a list of exactly `L` posts.  (The original claim
also covered `L = 0`, but `limit=0` is falsy in Python and is treated as
"no limit" — see the counterexample — so the bound must require `L ≥ 1`.) -/
theorem fetch_limit_exact (L total : Nat) (h1 : 1 ≤ L) (h2 : L ≤ total) :
    ∃ ps, (fetch_all_posts (ghostServer total) (some L) L).1 = .ok ps ∧ ps.length = L := by
  have h := fetchGo_ghost_limited L total h1 h2 L [] 1 (Nat.le_refl 1) (by simp)
    (by simpa using h1) (by simp)
  simpa [fetch_all_posts] using h

theorem fetch_limit_exact_witness :
    1 ≤ 2 ∧ 2 ≤ 3 ∧
    ∃ ps, (fetch_all_posts (ghostServer 3) (some 2) 2).1 = .ok ps ∧ ps.length = 2 :=
  ⟨by decide, by decide, fetch_limit_exact 2 3 (by decide) (by decide)⟩

/-- C1 counterexample: with `limit=0` against a store of one post (so `L = 0
≤` the store size), the fetch does not return exactly `0` posts — `0` is
falsy, the limit is ignored, and the single available post is returned. -/
theorem fetch_limit_zero_counterexample :
    (fetch_all_posts (ghostServer 1) (some 0) 1).1 = .ok [mkPost 0] ∧
    (fetch_all_posts (ghostServer 1) (some 0) 1).1 ≠ .ok [] := by decide

/-! ## C2: a short page ends the pagination -/

/-- C2 (confirmed).  For every loop state `(acc, page)` of `fetch_all_posts`,
if the response to the current page request holds strictly fewer posts than
the `limit` parameter requested for that page, the loop stops after
processing that page: it returns the accumulated posts plus that page, and
the request trace from this state contains exactly that one request. -/
theorem fetch_short_page_stops (server : Server) (limit : Option Nat) (fuel : Nat)
    (acc : List Post) (page : Nat) (posts : List Post)
    (hresp : server page (pageLimit limit (perPage limit) acc.length) = .ok posts)
    (hshort : posts.length < pageLimit limit (perPage limit) acc.length) :
    fetchGo server limit (fuel + 1) acc page =
      (.ok (acc ++ posts), [(page, pageLimit limit (perPage limit) acc.length)]) := by
  have hpp : posts.length < perPage limit :=
    Nat.lt_of_lt_of_le hshort (pageLimit_le limit (perPage limit) acc.length)
  cases posts with
  | nil => simp [fetchGo, hresp]
  | cons q qs =>
    simp only [List.length_cons] at hpp
    simp [fetchGo, hresp, hpp]

theorem fetch_short_page_stops_witness :
    emptyServer 1 (pageLimit none (perPage none) ([] : List Post).length) = .ok [] ∧
    ([] : List Post).length < pageLimit none (perPage none) ([] : List Post).length ∧
    fetchGo emptyServer none 1 [] 1 =
      (.ok ([] ++ []), [(1, pageLimit none (perPage none) ([] : List Post).length)]) :=
  ⟨rfl, by decide, fetch_short_page_stops emptyServer none 0 [] 1 [] rfl (by decide)⟩

/-! ## C3: an HTTP failure aborts the fetch immediately -/

/-- C3 (confirmed).  For every loop state of `fetch_all_posts`, if the
current page request fails (timeout or non-2xx, i.e. the oracle answers with
a raised request exception), the whole fetch ends right there with that
error: no post list is returned — in particular the posts accumulated from
earlier pages are discarded — and the request trace from this state holds
exactly the one failing request, so the request is not retried. -/
theorem fetch_http_error_aborts (server : Server) (limit : Option Nat) (fuel : Nat)
    (acc : List Post) (page : Nat) (e : HttpErr)
    (hresp : server page (pageLimit limit (perPage limit) acc.length) = .error e) :
    fetchGo server limit (fuel + 1) acc page =
      (.err e, [(page, pageLimit limit (perPage limit) acc.length)]) := by
  simp [fetchGo, hresp]

theorem fetch_http_error_aborts_witness :
    failingServer 2 (pageLimit none (perPage none) ([mkPost 0] : List Post).length) = .error ⟨500⟩ ∧
    fetchGo failingServer none 5 [mkPost 0] 2 =
      (.err ⟨500⟩, [(2, pageLimit none (perPage none) ([mkPost 0] : List Post).length)]) :=
  ⟨rfl, fetch_http_error_aborts failingServer none 4 [mkPost 0] 2 ⟨500⟩ rfl⟩

/-! ## C4: zero posts fetched means nothing is written -/

/-- C4 (confirmed).  Whenever the fetch phase returns zero posts,
`fetch_and_save` performs only the initial (idempotent) directory creation —
no JSON, TXT or index file is written — and returns normally. -/
theorem fetch_and_save_empty_no_writes (server : Server) (output_dir : String)
    (save_json save_txt : Bool) (limit : Option Nat) (ts : PyDateTime) (fuel : Nat)
    (h : (fetchGo server limit fuel [] 1).1 = .ok []) :
    fetch_and_save server output_dir save_json save_txt limit ts fuel =
      ([Event.mkdirDir output_dir], .ok) := by
  simp [fetch_and_save, h]

theorem fetch_and_save_empty_no_writes_witness :
    (fetchGo emptyServer none 1 [] 1).1 = .ok [] ∧
    fetch_and_save emptyServer "posts" true true none t0 1 = ([Event.mkdirDir "posts"], .ok) :=
  ⟨by decide, fetch_and_save_empty_no_writes emptyServer "posts" true true none t0 1 (by decide)⟩

/-! ## C7: HTML stripping on the reference input -/

/-- C7 (confirmed).  `strip_html_tags` applied to
`<p>Hello<script>bad()</script> World</p>` yields a text containing `Hello`
and `World` but no occurrence of `bad()` and no `<` or `>` character.  (The
output is in fact exactly `Hello World`.) -/
theorem strip_html_script_example :
    occurs "Hello".data (strip_html_tags "<p>Hello<script>bad()</script> World</p>").data = true ∧
    occurs "World".data (strip_html_tags "<p>Hello<script>bad()</script> World</p>").data = true ∧
    occurs "bad()".data (strip_html_tags "<p>Hello<script>bad()</script> World</p>").data = false ∧
    (strip_html_tags "<p>Hello<script>bad()</script> World</p>").data.contains '<' = false ∧
    (strip_html_tags "<p>Hello<script>bad()</script> World</p>").data.contains '>' = false := by
  decide

/-! ## C8: JSON artifact filenames and timestamps -/

/-- C8 (corrected).  The JSON artifact filename embeds the run's timestamp
formatted at second precision, and nothing else varies in it: two
invocations of `save_as_json` get different filenames exactly when their
formatted timestamps `%Y%m%d_%H%M%S` differ.  (The claim's universal
distinctness fails: see the counterexample of two invocations within the
same wall-clock second.) -/
theorem json_filename_collision_iff (t1 t2 : PyDateTime) :
    json_filename t1 = json_filename t2 ↔ strftime_ts t1 = strftime_ts t2 := by
  constructor
  · intro h
    have h2 : ("ghost_posts_" ++ strftime_ts t1 ++ ".json").data
        = ("ghost_posts_" ++ strftime_ts t2 ++ ".json").data := congrArg String.data h
    simp only [String.data_append, List.append_assoc] at h2
    have h3 := List.append_cancel_left h2
    have h4 := List.append_cancel_right h3
    cases ht1 : strftime_ts t1 with
    | mk d1 =>
      cases ht2 : strftime_ts t2 with
      | mk d2 =>
        rw [ht1, ht2] at h4
        exact congrArg String.mk h4
  · intro h
    unfold json_filename
    rw [h]

/-- C8 counterexample: two invocations at distinct instants of the same
wall-clock second produce the same JSON filename, so the later run
overwrites the earlier artifact. -/
theorem json_filename_same_second_counterexample :
    t0 ≠ t0' ∧ json_filename t0 = json_filename t0' := by decide

/-! ## C6: which artifacts the two persist flags produce -/

theorem ghostAll_length (total : Nat) : (ghostAll total).length = total := by
  simp [ghostAll, ghostPrefix]

theorem ghostAll_mem (total : Nat) (p : Post) (hp : p ∈ ghostAll total) :
    ∃ i, p = mkPost i := by
  simp [ghostAll, ghostPrefix] at hp
  obtain ⟨i, _, rfl⟩ := hp
  exact ⟨i, rfl⟩

theorem save_as_txt_ok (ps : List Post) (h : ∀ p ∈ ps, ∃ f, mkTxtFile p = .ok f) :
    (save_as_txt ps).2 = none ∧ (save_as_txt ps).1.length = ps.length := by
  induction ps with
  | nil => exact ⟨rfl, rfl⟩
  | cons p ps ih =>
    obtain ⟨f, hf⟩ := h p (by simp)
    have ihh := ih (fun q hq => h q (by simp [hq]))
    simp [save_as_txt, hf, ihh.1, ihh.2]

theorem save_index_ok (ps : List Post) (h : ∀ p ∈ ps, ∃ ent, mkIndexEntry p = .ok ent) :
    ∃ es, save_index ps = .ok es := by
  induction ps with
  | nil => exact ⟨[], rfl⟩
  | cons p ps ih =>
    obtain ⟨ent, hent⟩ := h p (by simp)
    obtain ⟨es, hes⟩ := ih (fun q hq => h q (by simp [hq]))
    exact ⟨ent :: es, by simp [save_index, hent, hes, Except.map]⟩

/-- C6 (corrected, amended claim).  The caller of the persist phase controls
only two switches, not three: `save_json` enables the JSON dump *together
with* the index, and `save_txt` independently enables the per-post text
files.  For every combination of the two flags (over a nonempty store), the
run succeeds and writes exactly the artifact kinds those flags select, the
index appearing if and only if the JSON dump does. -/
theorem persist_flag_combinations (sj st : Bool) (total : Nat) (output_dir : String)
    (ts : PyDateTime) (h : 1 ≤ total) :
    (fetch_and_save (ghostServer total) output_dir sj st none ts (total + 1)).2 = .ok ∧
    hasJsonEvt (fetch_and_save (ghostServer total) output_dir sj st none ts (total + 1)).1 = sj ∧
    hasIndexEvt (fetch_and_save (ghostServer total) output_dir sj st none ts (total + 1)).1 = sj ∧
    hasTxtEvt (fetch_and_save (ghostServer total) output_dir sj st none ts (total + 1)).1 = st := by
  have hf := ghost_fetch_none_top total
  rw [fetch_all_posts] at hf
  have hne : (ghostAll total).isEmpty = false := by
    apply isEmpty_false_of_pos
    rw [ghostAll_length]
    omega
  obtain ⟨es, hes⟩ := save_index_ok (ghostAll total)
    (fun p hp => by obtain ⟨i, rfl⟩ := ghostAll_mem total p hp; exact ⟨_, rfl⟩)
  have htxt := save_as_txt_ok (ghostAll total)
    (fun p hp => by obtain ⟨i, rfl⟩ := ghostAll_mem total p hp; exact ⟨_, rfl⟩)
  have hwit : (save_as_txt (ghostAll total)).1 ≠ [] := by
    intro hc
    have h2 := htxt.2
    rw [hc, ghostAll_length] at h2
    simp at h2
    omega
  cases hsf : (save_as_txt (ghostAll total)).1 with
  | nil => exact absurd hsf hwit
  | cons f fs =>
    cases sj <;> cases st <;>
      simp [fetch_and_save, hf, hne, jsonPhase, hes, txtPhase, htxt.1, hsf,
        hasJsonEvt, hasIndexEvt, hasTxtEvt, isJsonEvt, isIndexEvt, isTxtEvt,
        List.any_cons, List.any_append, List.any_map, Function.comp]

theorem persist_flag_combinations_witness :
    1 ≤ 1 ∧
    ((fetch_and_save (ghostServer 1) "posts" true true none t0 2).2 = .ok ∧
     hasJsonEvt (fetch_and_save (ghostServer 1) "posts" true true none t0 2).1 = true ∧
     hasIndexEvt (fetch_and_save (ghostServer 1) "posts" true true none t0 2).1 = true ∧
     hasTxtEvt (fetch_and_save (ghostServer 1) "posts" true true none t0 2).1 = true) :=
  ⟨Nat.le_refl 1, persist_flag_combinations true true 1 "posts" t0 (Nat.le_refl 1)⟩

/-- C6 counterexample: no combination of the caller's enable flags writes
the index without also writing the JSON dump, so the three artifact kinds
are not independently selectable — the index cannot be enabled on its own. -/
theorem index_not_independent_counterexample :
    ¬ ∃ (sj st : Bool),
      hasIndexEvt (fetch_and_save (ghostServer 1) "posts" sj st none t0 2).1 = true ∧
      hasJsonEvt (fetch_and_save (ghostServer 1) "posts" sj st none t0 2).1 = false := by
  decide

/-! ## C5: defaults substituted for absent fields at persistence time -/

theorem mkTxtFile_defaulted (p : Post) : mkTxtFile (txtDefaulted p) = mkTxtFile p := by
  simp [mkTxtFile, txtDefaulted]

theorem mkIndexEntry_defaulted (p : Post) : mkIndexEntry (indexDefaulted p) = mkIndexEntry p := by
  simp [mkIndexEntry, indexDefaulted]

/-- C5 (corrected, amended claim).  The persistence operations depend on a
post only through its defaulted view, but the defaults are not uniformly
empty-string/empty-sequence/zero: `save_as_txt` substitutes `'untitled'` for
an absent title, `post-<id>` for an absent slug, `'无摘要'` for an absent
excerpt, the empty string for an absent publish date and HTML body, `0` for
an absent reading time and the empty sequence for absent tags and authors;
`save_index` substitutes only the empty sequence for absent `tags` and keeps
every absent scalar field as JSON `null`. -/
theorem persist_absent_field_defaults (posts : List Post) :
    save_as_txt (posts.map txtDefaulted) = save_as_txt posts ∧
    save_index (posts.map indexDefaulted) = save_index posts := by
  induction posts with
  | nil => exact ⟨rfl, rfl⟩
  | cons p ps ih =>
    constructor
    · simp only [List.map_cons, save_as_txt, mkTxtFile_defaulted, ih.1]
    · simp only [List.map_cons, save_index, mkIndexEntry_defaulted, ih.2]

/-- C5 counterexample: for the post carrying only `id := "42"`, the index
entry persists the absent title as `null` (not the empty string), and the
text artifact uses `untitled` and `post-42` in its filename (not empty
strings) and embeds `untitled` in its banner. -/
theorem persist_missing_title_counterexample :
    (mkIndexEntry pOnlyId).toOption.map IndexEntry.title = some none ∧
    (mkTxtFile pOnlyId).toOption.map TxtFile.filename = some "post-42_untitled.txt" ∧
    occurs "untitled".data (((mkTxtFile pOnlyId).toOption.map TxtFile.content).getD "").data = true := by
  decide

/-! ## C10: missing `name` keys in tags/authors raise `KeyError` -/

theorem extractNames_error_of_missing (l : List NameDict) (h : missingName l = true) :
    extractNames l = .error ⟨"name"⟩ := by
  induction l with
  | nil => simp [missingName] at h
  | cons t ts ih =>
    cases ht : t.name with
    | none => simp [extractNames, ht]
    | some n =>
      have hts : missingName ts = true := by
        simpa [missingName, ht] using h
      simp [extractNames, ht, ih hts, Except.map]

theorem extractNames_ok_of_not_missing (l : List NameDict) (h : missingName l = false) :
    ∃ ns, extractNames l = .ok ns := by
  induction l with
  | nil => exact ⟨[], rfl⟩
  | cons t ts ih =>
    cases ht : t.name with
    | none => simp [missingName, ht] at h
    | some n =>
      have hts : missingName ts = false := by
        simpa [missingName, ht] using h
      obtain ⟨ns, hns⟩ := ih hts
      exact ⟨n :: ns, by simp [extractNames, ht, hns, Except.map]⟩

theorem mkTxtFile_error_of_missing (p : Post) (h : txtMissing p = true) :
    mkTxtFile p = .error ⟨"name"⟩ := by
  by_cases h1 : missingName (p.tags.getD []) = true
  · simp [mkTxtFile, extractNames_error_of_missing _ h1]
  · have h1' : missingName (p.tags.getD []) = false := by simpa using h1
    have h2 : missingName (p.authors.getD []) = true := by
      simpa [txtMissing, h1'] using h
    obtain ⟨ns, hns⟩ := extractNames_ok_of_not_missing _ h1'
    simp [mkTxtFile, hns, extractNames_error_of_missing _ h2]

theorem save_as_txt_raises (posts : List Post) (h : posts.any txtMissing = true) :
    (save_as_txt posts).2.isSome = true ∧ (save_as_txt posts).1.length < posts.length := by
  induction posts with
  | nil => simp at h
  | cons p ps ih =>
    by_cases hp : txtMissing p = true
    · simp [save_as_txt, mkTxtFile_error_of_missing p hp]
    · have hps : ps.any txtMissing = true := by
        have hp' : txtMissing p = false := by simpa using hp
        simpa [List.any_cons, hp'] using h
      cases hm : mkTxtFile p with
      | error e => simp [save_as_txt, hm]
      | ok f =>
        have hih := ih hps
        simp only [save_as_txt, hm, List.length_cons]
        exact ⟨hih.1, Nat.succ_lt_succ hih.2⟩

theorem save_index_raises (posts : List Post)
    (h : posts.any (fun p => missingName (p.tags.getD [])) = true) :
    ∃ e, save_index posts = .error e := by
  induction posts with
  | nil => simp at h
  | cons p ps ih =>
    by_cases hp : missingName (p.tags.getD []) = true
    · exact ⟨⟨"name"⟩, by simp [save_index, mkIndexEntry, extractNames_error_of_missing _ hp]⟩
    · have hps : ps.any (fun p => missingName (p.tags.getD [])) = true := by
        have hp' : missingName (p.tags.getD []) = false := by simpa using hp
        simpa [List.any_cons, hp'] using h
      obtain ⟨e, he⟩ := ih hps
      cases hm : mkIndexEntry p with
      | error e' => exact ⟨e', by simp [save_index, hm]⟩
      | ok ent => exact ⟨e, by simp [save_index, hm, he, Except.map]⟩

/-- C10 (corrected, amended claim).  `save_as_txt` requires every element of
a post's `tags` and `authors` sequences to carry `name`: any collection
containing a post with a nameless tag or author makes it raise `KeyError`
and write strictly fewer files than there are posts.  `save_index` requires
this only of `tags` — it never reads `authors` — and raises `KeyError`
(writing nothing) whenever some post has a nameless tag. -/
theorem save_missing_name_raises :
    (∀ posts : List Post, posts.any txtMissing = true →
      (save_as_txt posts).2.isSome = true ∧ (save_as_txt posts).1.length < posts.length) ∧
    (∀ posts : List Post, posts.any (fun p => missingName (p.tags.getD [])) = true →
      ∃ e, save_index posts = .error e) :=
  ⟨save_as_txt_raises, save_index_raises⟩

theorem save_missing_name_raises_witness :
    ([pBadTag].any txtMissing = true ∧
     (save_as_txt [pBadTag]).2.isSome = true ∧ (save_as_txt [pBadTag]).1.length < [pBadTag].length) ∧
    ([pBadTag].any (fun p => missingName (p.tags.getD [])) = true ∧
     ∃ e, save_index [pBadTag] = .error e) :=
  ⟨⟨by decide, save_missing_name_raises.1 [pBadTag] (by decide)⟩,
   ⟨by decide, save_missing_name_raises.2 [pBadTag] (by decide)⟩⟩

/-- C10 counterexample: a collection whose only post has an author mapping
without `name` (and no tag list).  `save_as_txt` raises on it, but
`save_index` succeeds — authors are not read by the index — so the claim
that both operations raise is false. -/
theorem save_index_ignores_missing_author_name :
    missingName (pBadAuthor.authors.getD []) = true ∧
    save_index [pBadAuthor] =
      .ok [{ id := some "1", slug := none, title := none, excerpt := none,
             published_at := none, reading_time := none, tags := [], url := none }] := by
  decide
